import Mathlib

/-!
Shallow embedding of `pax/PatternFitter.py` (class `PatternFitter`).

Conventions of the embedding:
* Python floats are modelled as exact rationals `ℚ`; IEEE non-finite results
  (NaN, ±inf), which arise in the goodness-of-fit computation when a bin's
  expected response sums to zero, are modelled by the type `FVal` below with
  IEEE-754 propagation rules as numpy implements them.
* Python exceptions become `Except PaxError`.  `PatternFitter.py` raises a
  single exception class `CoordinateOutOfRangeException` (imported from
  `pax.exceptions`) both for out-of-range coordinates and for all-zero
  expected patterns; numpy integer indexing raises `IndexError`; an unknown
  statistic raises `ValueError`; messages are elided (Python's
  `except CoordinateOutOfRangeException` matches on the class only).
* numpy array semantics are reproduced where they matter: integer indexing
  raises IndexError when out of bounds (with Python's negative-index wrap),
  slicing silently clamps to the array bounds, and `np.nanargmin` returns the
  first index of the smallest non-NaN entry.
* The map file consistency assumption (the json `map` array's spatial shape
  equals the `n_bins` of `coordinate_system`, as for a well-formed file) is
  built in: array bounds come from `coordinate_data`.
* `matplotlib` plotting branches (`plot=False` by default) and the scipy
  Powell minimizer itself are outside the embedding; the objective wrapper
  `safe_compute_gof` inside `minimize_gof_powell` is embedded.
-/

namespace Pax

/-- The exception outcomes of `PatternFitter` methods.  `coordinateOutOfRange`
is `pax.exceptions.CoordinateOutOfRangeException` (the only exception class
the module imports and raises; message strings elided); `indexError` is
numpy's `IndexError` from integer indexing; `valueError` is Python's
`ValueError` (unsupported statistic, and `np.nanargmin` on an all-NaN array);
`parseError` is the error numexpr raises when handed a syntactically invalid
expression string (see `chi2_expr_formatted` below). -/
inductive PaxError where
  | coordinateOutOfRange
  | indexError
  | valueError
  | parseError
deriving DecidableEq, Repr

/-- IEEE-754-style float values over exact rationals: finite values plus
`inf`, `neginf` and `nan`, with numpy's propagation rules.  Zero is treated
as +0 (the only zeros produced in this module are sums of literals). -/
inductive FVal where
  | num (q : ℚ)
  | inf
  | neginf
  | nan
deriving DecidableEq, Repr

namespace FVal

def isNan : FVal → Bool
  | nan => true
  | _ => false

def isFinite : FVal → Bool
  | num _ => true
  | _ => false

def add : FVal → FVal → FVal
  | nan, _ => nan
  | _, nan => nan
  | inf, neginf => nan
  | neginf, inf => nan
  | inf, _ => inf
  | _, inf => inf
  | neginf, _ => neginf
  | _, neginf => neginf
  | num a, num b => num (a + b)

def neg : FVal → FVal
  | num a => num (-a)
  | inf => neginf
  | neginf => inf
  | nan => nan

def sub (x y : FVal) : FVal := add x (neg y)

def mul : FVal → FVal → FVal
  | nan, _ => nan
  | _, nan => nan
  | num a, num b => num (a * b)
  | inf, inf => inf
  | inf, neginf => neginf
  | neginf, inf => neginf
  | neginf, neginf => inf
  | inf, num b => if 0 < b then inf else if b < 0 then neginf else nan
  | num a, inf => if 0 < a then inf else if a < 0 then neginf else nan
  | neginf, num b => if 0 < b then neginf else if b < 0 then inf else nan
  | num a, neginf => if 0 < a then neginf else if a < 0 then inf else nan

/-- numexpr `x**2`. -/
def pow2 (x : FVal) : FVal := mul x x

def div : FVal → FVal → FVal
  | nan, _ => nan
  | _, nan => nan
  | num a, num b =>
      if b = 0 then (if a = 0 then nan else if 0 < a then inf else neginf)
      else num (a / b)
  | inf, num b => if 0 ≤ b then inf else neginf
  | neginf, num b => if 0 ≤ b then neginf else inf
  | num _, inf => num 0
  | num _, neginf => num 0
  | inf, inf => nan
  | inf, neginf => nan
  | neginf, inf => nan
  | neginf, neginf => nan

/-- IEEE strict `<`: false whenever either side is NaN. -/
def flt : FVal → FVal → Bool
  | nan, _ => false
  | _, nan => false
  | num a, num b => a < b
  | num _, inf => true
  | num _, neginf => false
  | inf, _ => false
  | neginf, neginf => false
  | neginf, _ => true


end FVal

/-- Python `int()` applied to a rational: truncation toward zero. -/
def pyInt (x : ℚ) : ℤ := if 0 ≤ x then ⌊x⌋ else ⌈x⌉


/-- numpy integer indexing into an axis of length `n`: negative indices wrap
once, anything else out of `[-n, n)` raises IndexError. -/
def npIndex (n : ℕ) (i : ℤ) : Except PaxError ℕ :=
  if 0 ≤ i ∧ i < (n : ℤ) then .ok i.toNat
  else if -(n : ℤ) ≤ i ∧ i < 0 then .ok (i + n).toNat
  else .error .indexError

/-- The indices selected by a Python/numpy `slice(start, stop)` on an axis of
length `n`: both ends are clamped into `[0, n]` (negative values wrap once),
and an empty range results when `stop ≤ start`. -/
def sliceIndices (n : ℕ) (start stop : ℤ) : List ℕ :=
  let norm : ℤ → ℤ := fun i => if i < 0 then max (i + n) 0 else min i n
  List.range' (norm start).toNat ((norm stop) - (norm start)).toNat

/-- `CoordinateData` named tuple of `PatternFitter.py`. -/
structure CoordinateData where
  minimum : ℚ
  maximum : ℚ
  n_bins : ℕ
  bin_spacing : ℚ
deriving DecidableEq, Repr

instance : Inhabited CoordinateData := ⟨⟨0, 0, 0, 0⟩⟩

/-- Well-formedness of an axis as produced by `PatternFitter.__init__` from a
sane map file: positive bin count, nonempty range, and the stored
`bin_spacing = (stop - start) / n_bins`. -/
def CoordinateData.WF (cd : CoordinateData) : Prop :=
  0 < cd.n_bins ∧ cd.minimum < cd.maximum ∧
    cd.bin_spacing = (cd.maximum - cd.minimum) / (cd.n_bins : ℚ)

instance (cd : CoordinateData) : Decidable cd.WF := by
  unfold CoordinateData.WF; infer_instance

/-- The in-memory state of a constructed `PatternFitter`: the axis list, the
number of channels (`n_points`), the map data (spatial bin-index list →
channel → expected response), and the scalar `default_errors` factor. -/
structure PatternFitter where
  coordinate_data : List CoordinateData
  n_points : ℕ
  data : List ℕ → ℕ → ℚ
  default_errors : ℚ

def PatternFitter.WF (pf : PatternFitter) : Prop :=
  ∀ cd ∈ pf.coordinate_data, cd.WF

namespace PatternFitter

/-- `PatternFitter._get_bin_index`: range check (inclusive both ends), then
`int((value - minimum) / bin_spacing)`. -/
def _get_bin_index (pf : PatternFitter) (value : ℚ) (dimension_i : ℕ) :
    Except PaxError ℤ :=
  let cd := pf.coordinate_data.getD dimension_i default
  if cd.minimum ≤ value ∧ value ≤ cd.maximum then
    .ok (pyInt ((value - cd.minimum) / cd.bin_spacing))
  else
    .error .coordinateOutOfRange

/-- `PatternFitter._get_bin_center`: `minimum + bin_spacing * (bin_i + 0.5)`,
no bounds validation. -/
def _get_bin_center (pf : PatternFitter) (bin_i : ℤ) (dimension_i : ℕ) : ℚ :=
  let cd := pf.coordinate_data.getD dimension_i default
  cd.minimum + cd.bin_spacing * ((bin_i : ℚ) + 1/2)

/-- Helper for `get_bin_indices`: the list-comprehension loop, with the
running dimension index made explicit; fails on the first bad dimension. -/
def getBinIndicesAux (pf : PatternFitter) (d : ℕ) :
    List ℚ → Except PaxError (List ℤ)
  | [] => .ok []
  | x :: rest =>
    match pf._get_bin_index x d with
    | .error e => .error e
    | .ok i =>
      match getBinIndicesAux pf (d + 1) rest with
      | .error e => .error e
      | .ok is => .ok (i :: is)

/-- `PatternFitter.get_bin_indices`. -/
def get_bin_indices (pf : PatternFitter) (coordinates : List ℚ) :
    Except PaxError (List ℤ) :=
  getBinIndicesAux pf 0 coordinates

/-- numpy integer indexing of the spatial axes, one axis at a time (axis `d`
has length `n_bins` of axis `d`). -/
def npIndexList (pf : PatternFitter) (d : ℕ) :
    List ℤ → Except PaxError (List ℕ)
  | [] => .ok []
  | i :: rest =>
    match npIndex (pf.coordinate_data.getD d default).n_bins i with
    | .error e => .error e
    | .ok j =>
      match pf.npIndexList (d + 1) rest with
      | .error e => .error e
      | .ok js => .ok (j :: js)

/-- `PatternFitter.expected_pattern`: slice the full channel vector at the
bin of `coordinates`, raise (`CoordinateOutOfRangeException`) if it sums to
zero, else normalize.  The `.copy()` of the source has no observable effect
in a pure embedding. -/
def expected_pattern (pf : PatternFitter) (coordinates : List ℚ) :
    Except PaxError (List ℚ) :=
  match pf.get_bin_indices coordinates with
  | .error e => .error e
  | .ok idx =>
    match pf.npIndexList 0 idx with
    | .error e => .error e
    | .ok js =>
      let pattern := (List.range pf.n_points).map (pf.data js)
      let sum_pattern := pattern.sum
      if sum_pattern = 0 then .error .coordinateOutOfRange
      else .ok (pattern.map (· / sum_pattern))

end PatternFitter

/-- A component of the `bin_selection` argument of `_compute_gof_base`:
either an integer bin index (`compute_gof` path) or a `slice(start, stop)`
(`compute_gof_grid` path). -/
inductive BinSel where
  | idx (i : ℤ)
  | sl (start stop : ℤ)
deriving DecidableEq, Repr

/-- Result of `_compute_gof_base`: the numpy result array, stored as its
shape (one entry per sliced dimension) and its row-major flattening. -/
structure GofResult where
  shape : List ℕ
  flat : List FVal
deriving DecidableEq, Repr

namespace PatternFitter

/-- numpy indexing `self.data[bin_selection + [pmt_selection]]`, resolved one
spatial axis at a time: integer components are bounds-checked (IndexError),
slice components clamp.  Returns the selected spatial multi-indices in
row-major order together with the shape contributed by the slice
components. -/
def resolveSelAux (pf : PatternFitter) (d : ℕ) :
    List BinSel → Except PaxError (List (List ℕ) × List ℕ)
  | [] => .ok ([[]], [])
  | s :: rest =>
    let n := (pf.coordinate_data.getD d default).n_bins
    match pf.resolveSelAux (d + 1) rest with
    | .error e => .error e
    | .ok (tails, tshape) =>
      match s with
      | .idx i =>
        match npIndex n i with
        | .error e => .error e
        | .ok j => .ok (tails.map (j :: ·), tshape)
      | .sl a b =>
        let js := sliceIndices n a b
        .ok (js.flatMap (fun j => tails.map (j :: ·)), js.length :: tshape)

/-- The per-bin chi2gamma goodness-of-fit value of `_compute_gof_base`
(lines 179-191 and the final channel-axis sum), at spatial bin `b`, over the
selected channels `chans`, with full-length observed areas and squared
systematic errors:
`(ao + where(ao > 1, 1, ao) - ae)**2 / (ae + square_syst_errors + 1)`
summed over channels, where `ae = fractions_expected * total_observed` and
`fractions_expected = q / qsum`. -/
def gofAtBin (pf : PatternFitter) (chans : List ℕ) (areas sse : List ℚ)
    (b : List ℕ) : FVal :=
  let qsum : ℚ := (chans.map (pf.data b)).sum
  let total_observed : ℚ := (chans.map (fun c => areas.getD c 0)).sum
  (chans.map (fun c =>
    let ao : ℚ := areas.getD c 0
    let m : ℚ := if 1 < ao then 1 else ao
    let ae : FVal := (FVal.div (.num (pf.data b c)) (.num qsum)).mul
      (.num total_observed)
    FVal.div (FVal.pow2 (FVal.sub (.num (ao + m)) ae))
      (FVal.add (FVal.add ae (.num (sse.getD c 0))) (.num 1)))).foldr
    FVal.add (.num 0)

/-- `PatternFitter._compute_gof_base`.  The `'chi2'` branch formats an
expression string with unbalanced parentheses (see `chi2_expr_formatted` and
`chi2_expr_unbalanced` below), so numexpr fails to parse it and every
`'chi2'` evaluation raises; unknown statistics raise ValueError. -/
def _compute_gof_base (pf : PatternFitter) (bin_selection : List BinSel)
    (areas_observed : List ℚ) (pmt_selection : Option (List Bool))
    (square_syst_errors : Option (List ℚ)) (statistic : String) :
    Except PaxError GofResult :=
  let sel := pmt_selection.getD (List.replicate pf.n_points true)
  let chans := (List.range pf.n_points).filter (fun c => sel.getD c false)
  let sse := square_syst_errors.getD ((List.range pf.n_points).map
    (fun c => (pf.default_errors * areas_observed.getD c 0) ^ 2))
  match pf.resolveSelAux 0 bin_selection with
  | .error e => .error e
  | .ok (combos, shape) =>
    if statistic = "chi2gamma" then
      .ok ⟨shape, combos.map (pf.gofAtBin chans areas_observed sse)⟩
    else if statistic = "chi2" then
      .error .parseError
    else
      .error .valueError

/-- `PatternFitter.compute_gof`: goodness of fit at a single coordinate
point.  The all-integer bin selection produces a numpy 0-d array, i.e. a
single scalar (the catch-all branch is unreachable for such selections, see
`resolveSelAux_idx`). -/
def compute_gof (pf : PatternFitter) (coordinates areas_observed : List ℚ)
    (pmt_selection : Option (List Bool)) (square_syst_errors : Option (List ℚ))
    (statistic : String) : Except PaxError FVal :=
  match pf.get_bin_indices coordinates with
  | .error e => .error e
  | .ok idx =>
    match pf._compute_gof_base (idx.map BinSel.idx) areas_observed
        pmt_selection square_syst_errors statistic with
    | .error e => .error e
    | .ok r =>
      match r.flat with
      | [v] => .ok v
      | _ => .error .indexError

/-- The per-dimension loop of `compute_gof_grid` (lines 119-132): check the
center, then look up the bin indices of the clamped window edges and record
`slice(start, stop + 1)` and the lowest bin. -/
def gridSelectionAux (pf : PatternFitter) (grid_size : ℚ) (d : ℕ) :
    List ℚ → Except PaxError (List BinSel × List ℤ)
  | [] => .ok ([], [])
  | x :: rest =>
    let cd := pf.coordinate_data.getD d default
    if cd.minimum ≤ x ∧ x ≤ cd.maximum then
      match pf._get_bin_index (max (x - grid_size / 2) cd.minimum) d with
      | .error e => .error e
      | .ok start =>
        match pf._get_bin_index (min (x + grid_size / 2) cd.maximum) d with
        | .error e => .error e
        | .ok stop =>
          match pf.gridSelectionAux grid_size (d + 1) rest with
          | .error e => .error e
          | .ok r => .ok (BinSel.sl start (stop + 1) :: r.1, start :: r.2)
    else
      .error .coordinateOutOfRange

/-- `PatternFitter.compute_gof_grid` (with `plot=False`). -/
def compute_gof_grid (pf : PatternFitter) (center_coordinates : List ℚ)
    (grid_size : ℚ) (areas_observed : List ℚ)
    (pmt_selection : Option (List Bool)) (square_syst_errors : Option (List ℚ))
    (statistic : String) : Except PaxError (GofResult × List ℤ) :=
  match pf.gridSelectionAux grid_size 0 center_coordinates with
  | .error e => .error e
  | .ok (bin_selection, lowest_bins) =>
    match pf._compute_gof_base bin_selection areas_observed pmt_selection
        square_syst_errors statistic with
    | .error e => .error e
    | .ok gofs => .ok (gofs, lowest_bins)

end PatternFitter

/-- `np.nanargmin` over a row-major flattened array: the flat index (and
value) of the smallest non-NaN entry, earliest index on ties; `none` when
every entry is NaN (numpy raises ValueError then). -/
def nanargmin : List FVal → Option (ℕ × FVal)
  | [] => none
  | v :: rest =>
    match nanargmin rest with
    | none => if v.isNan then none else some (0, v)
    | some (j, w) =>
      if v.isNan then some (j + 1, w)
      else if FVal.flt w v then some (j + 1, w)
      else some (0, v)

/-- `np.unravel_index` for row-major (C-order) arrays. -/
def unravelIdx : List ℕ → ℕ → List ℕ
  | [], _ => []
  | _ :: rest, k => (k / rest.prod) :: unravelIdx rest (k % rest.prod)

namespace PatternFitter

/-- `PatternFitter.minimize_gof_grid`: locate the grid minimum with
`np.nanargmin`, unravel its index, and convert back to coordinates via
`_get_bin_center` offset by the recorded lowest bins. -/
def minimize_gof_grid (pf : PatternFitter) (center_coordinates : List ℚ)
    (grid_size : ℚ) (areas_observed : List ℚ)
    (pmt_selection : Option (List Bool)) (square_syst_errors : Option (List ℚ))
    (statistic : String) : Except PaxError (List ℚ × FVal) :=
  match pf.compute_gof_grid center_coordinates grid_size areas_observed
      pmt_selection square_syst_errors statistic with
  | .error e => .error e
  | .ok (gofs, lowest_bins) =>
    match nanargmin gofs.flat with
    | none => .error .valueError
    | some (k, _) =>
      let min_index := unravelIdx gofs.shape k
      .ok ((min_index.enum.map (fun p =>
        pf._get_bin_center (lowest_bins.getD p.1 0 + (p.2 : ℤ)) p.1)),
        gofs.flat.getD k .nan)

/-- The `safe_compute_gof` objective wrapper inside
`PatternFitter.minimize_gof_powell`: `except CoordinateOutOfRangeException`
(matching on the exception class) substitutes `float('inf')`; every other
outcome passes through. -/
def safe_compute_gof (pf : PatternFitter) (coordinates areas_observed : List ℚ)
    (pmt_selection : Option (List Bool)) (square_syst_errors : Option (List ℚ))
    (statistic : String) : Except PaxError FVal :=
  match pf.compute_gof coordinates areas_observed pmt_selection
      square_syst_errors statistic with
  | .error .coordinateOutOfRange => .ok .inf
  | r => r

end PatternFitter

/-- The `'chi2'` numexpr template of `_compute_gof_base` (lines 193-194,
the two adjacent Python string literals concatenated), before `.format`. -/
def chi2_expr_template : String :=
  "(ao + {ae})**2 /({ae} + square_syst_errors"

/-- The `'chi2gamma'` numexpr template of `_compute_gof_base` (lines
190-191), before `.format`. -/
def chi2gamma_expr_template : String :=
  "(ao + where(ao > 1, 1, ao) - {ae})**2 /({ae} + square_syst_errors + 1)"

/-- The string substituted for `ae` in both templates. -/
def ae_substitution : String := "fractions_expected * total_observed"

/-- Python's `.format(ae=...)` on these templates: replace every occurrence
of the placeholder with `ae_substitution`. -/
def fmtAe : List Char → List Char
  | '{' :: 'a' :: 'e' :: '}' :: rest => ae_substitution.data ++ fmtAe rest
  | c :: rest => c :: fmtAe rest
  | [] => []

def pyFormatAe (s : String) : String := ⟨fmtAe s.data⟩

/-- The expression string `_compute_gof_base` hands to `ne.evaluate` for
statistic `'chi2'`. -/
def chi2_expr_formatted : String := pyFormatAe chi2_expr_template

/-- The expression string `_compute_gof_base` hands to `ne.evaluate` for
statistic `'chi2gamma'`. -/
def chi2gamma_expr_formatted : String := pyFormatAe chi2gamma_expr_template

/-- Parenthesis-balance check: a necessary condition for an expression
string to parse. -/
def parenOk : List Char → ℤ → Bool
  | [], depth => depth = 0
  | c :: rest, depth =>
    if c = '(' then parenOk rest (depth + 1)
    else if c = ')' then decide (0 < depth) && parenOk rest (depth - 1)
    else parenOk rest depth

def balancedParens (s : String) : Bool := parenOk s.data 0

/-! ### Concrete instances used for witnesses and counterexamples -/

/-- A well-formed axis: `[0, 10]` with 10 bins of spacing 1. -/
def cd10 : CoordinateData := ⟨0, 10, 10, 1⟩

/-- One spatial dimension (`cd10`), two channels, constant pattern `[3, 1]`
everywhere, `default_errors = 0`. -/
def pf1 : PatternFitter :=
  { coordinate_data := [cd10], n_points := 2,
    data := fun _ c => if c = 0 then 3 else 1, default_errors := 0 }

/-- One spatial dimension (`cd10`), one channel, constant pattern `[1]`. -/
def pfA : PatternFitter :=
  { coordinate_data := [cd10], n_points := 1,
    data := fun _ _ => 1, default_errors := 0 }

/-- One spatial dimension (`cd10`), two channels; the pattern is all zeros
at spatial bin 5 and `[1, 1]` elsewhere. -/
def pfZ : PatternFitter :=
  { coordinate_data := [cd10], n_points := 2,
    data := fun b _ => if b.getD 0 0 = 5 then 0 else 1, default_errors := 0 }

/-! ### Evaluation lemmas -/

namespace FVal

@[simp] theorem add_num_num (a b : ℚ) : add (num a) (num b) = num (a + b) := rfl
@[simp] theorem add_nan_left (x : FVal) : add nan x = nan := by cases x <;> rfl
@[simp] theorem add_nan_right (x : FVal) : add x nan = nan := by cases x <;> rfl
@[simp] theorem add_inf_num (b : ℚ) : add inf (num b) = inf := rfl
@[simp] theorem add_num_inf (a : ℚ) : add (num a) inf = inf := rfl
@[simp] theorem add_neginf_num (b : ℚ) : add neginf (num b) = neginf := rfl
@[simp] theorem add_num_neginf (a : ℚ) : add (num a) neginf = neginf := rfl
@[simp] theorem neg_num (a : ℚ) : neg (num a) = num (-a) := rfl
@[simp] theorem sub_num_num (a b : ℚ) : sub (num a) (num b) = num (a - b) := by
  simp [sub, sub_eq_add_neg]
@[simp] theorem sub_num_nan (a : ℚ) : sub (num a) nan = nan := rfl
@[simp] theorem sub_num_inf (a : ℚ) : sub (num a) inf = neginf := rfl
@[simp] theorem sub_num_neginf (a : ℚ) : sub (num a) neginf = inf := rfl
@[simp] theorem mul_num_num (a b : ℚ) : mul (num a) (num b) = num (a * b) := rfl
@[simp] theorem mul_nan_left (x : FVal) : mul nan x = nan := by cases x <;> rfl
@[simp] theorem mul_nan_right (x : FVal) : mul x nan = nan := by cases x <;> rfl
@[simp] theorem mul_inf_num (b : ℚ) :
    mul inf (num b) = if 0 < b then inf else if b < 0 then neginf else nan := rfl
@[simp] theorem mul_neginf_num (b : ℚ) :
    mul neginf (num b) = if 0 < b then neginf else if b < 0 then inf else nan :=
  rfl
@[simp] theorem pow2_num (a : ℚ) : pow2 (num a) = num (a * a) := rfl
@[simp] theorem pow2_nan : pow2 nan = nan := rfl
@[simp] theorem pow2_inf : pow2 inf = inf := rfl
@[simp] theorem pow2_neginf : pow2 neginf = inf := rfl
@[simp] theorem div_num_num (a b : ℚ) :
    div (num a) (num b) =
      if b = 0 then (if a = 0 then nan else if 0 < a then inf else neginf)
      else num (a / b) := rfl
@[simp] theorem div_nan_left (x : FVal) : div nan x = nan := by cases x <;> rfl
@[simp] theorem div_nan_right (x : FVal) : div x nan = nan := by cases x <;> rfl
@[simp] theorem div_inf_num (b : ℚ) :
    div inf (num b) = if 0 ≤ b then inf else neginf := rfl
@[simp] theorem div_neginf_num (b : ℚ) :
    div neginf (num b) = if 0 ≤ b then neginf else inf := rfl
@[simp] theorem div_inf_inf : div inf inf = nan := rfl
@[simp] theorem div_inf_neginf : div inf neginf = nan := rfl
@[simp] theorem div_neginf_inf : div neginf inf = nan := rfl
@[simp] theorem div_neginf_neginf : div neginf neginf = nan := rfl
@[simp] theorem isNan_num (a : ℚ) : isNan (num a) = false := rfl
@[simp] theorem isNan_inf : isNan inf = false := rfl
@[simp] theorem isNan_neginf : isNan neginf = false := rfl
@[simp] theorem isNan_nan : isNan nan = true := rfl
@[simp] theorem isFinite_num (a : ℚ) : isFinite (num a) = true := rfl
@[simp] theorem isFinite_inf : isFinite inf = false := rfl
@[simp] theorem isFinite_neginf : isFinite neginf = false := rfl
@[simp] theorem isFinite_nan : isFinite nan = false := rfl
@[simp] theorem flt_num_num (a b : ℚ) : flt (num a) (num b) = decide (a < b) :=
  rfl
@[simp] theorem flt_nan_left (x : FVal) : flt nan x = false := by
  cases x <;> rfl
@[simp] theorem flt_nan_right (x : FVal) : flt x nan = false := by
  cases x <;> rfl
@[simp] theorem flt_num_inf (a : ℚ) : flt (num a) inf = true := rfl
@[simp] theorem flt_num_neginf (a : ℚ) : flt (num a) neginf = false := rfl
@[simp] theorem flt_inf_left (x : FVal) : flt inf x = false := by
  cases x <;> rfl
@[simp] theorem flt_neginf_num (a : ℚ) : flt neginf (num a) = true := rfl

end FVal

/-- Evaluation helper: `Int.toNat` on a nonnegative integer literal. -/
@[simp] theorem intToNatLit (n : ℕ) :
    (no_index (OfNat.ofNat n) : ℤ).toNat = OfNat.ofNat n := rfl

set_option maxRecDepth 4000

example : pf1.WF := by
  norm_num [PatternFitter.WF, CoordinateData.WF, pf1, cd10]
example : pfA._get_bin_index (1/2) 0 = .ok 0 := by
  norm_num [PatternFitter._get_bin_index, pfA, cd10, pyInt]
example : pfA.expected_pattern [1/2] = .ok [1] := by
  norm_num [PatternFitter.expected_pattern, PatternFitter.get_bin_indices,
    PatternFitter.getBinIndicesAux, PatternFitter._get_bin_index,
    PatternFitter.npIndexList, npIndex, pfA, cd10, pyInt, List.range_succ]
example : pfZ.expected_pattern [11/2] = .error .coordinateOutOfRange := by
  norm_num [PatternFitter.expected_pattern, PatternFitter.get_bin_indices,
    PatternFitter.getBinIndicesAux, PatternFitter._get_bin_index,
    PatternFitter.npIndexList, npIndex, pfZ, cd10, pyInt, List.range_succ,
    intToNatLit]
example : pf1.expected_pattern [10] = .error .indexError := by
  norm_num [PatternFitter.expected_pattern, PatternFitter.get_bin_indices,
    PatternFitter.getBinIndicesAux, PatternFitter._get_bin_index,
    PatternFitter.npIndexList, npIndex, pf1, cd10, pyInt, List.range_succ]
example :
    pfA.compute_gof [1/2] [4] none (some [0]) "chi2gamma" =
      .ok (.num (1/5)) := by
  norm_num [PatternFitter.compute_gof, PatternFitter.get_bin_indices,
    PatternFitter.getBinIndicesAux, PatternFitter._get_bin_index,
    PatternFitter._compute_gof_base, PatternFitter.resolveSelAux,
    PatternFitter.gofAtBin, npIndex, pfA, cd10, pyInt, List.range_succ,
    intToNatLit]
set_option maxHeartbeats 1000000 in
example :
    pfA.compute_gof_grid [5] 2 [1] none none "chi2gamma" =
      .ok (⟨[3], [.num (1/2), .num (1/2), .num (1/2)]⟩, [4]) := by
  norm_num [PatternFitter.compute_gof_grid, PatternFitter.gridSelectionAux,
    PatternFitter._get_bin_index, PatternFitter._compute_gof_base,
    PatternFitter.resolveSelAux, PatternFitter.gofAtBin, sliceIndices,
    npIndex, pfA, cd10, pyInt, List.range_succ, List.range', intToNatLit]
set_option maxHeartbeats 1000000 in
example :
    pfA.minimize_gof_grid [5] 2 [1] none none "chi2gamma" =
      .ok ([9/2], .num (1/2)) := by
  norm_num [PatternFitter.minimize_gof_grid, PatternFitter.compute_gof_grid,
    PatternFitter.gridSelectionAux, PatternFitter._get_bin_index,
    PatternFitter._compute_gof_base, PatternFitter.resolveSelAux,
    PatternFitter.gofAtBin, PatternFitter._get_bin_center, sliceIndices,
    npIndex, pfA, cd10, pyInt, List.range_succ, List.range', nanargmin,
    unravelIdx, intToNatLit]
example : balancedParens chi2_expr_formatted = false := by decide
example : balancedParens chi2gamma_expr_formatted = true := by decide

/-! ### Bin-index lemmas -/

theorem pyInt_of_nonneg {x : ℚ} (h : 0 ≤ x) : pyInt x = ⌊x⌋ := if_pos h

theorem CoordinateData.spacing_pos {cd : CoordinateData} (h : cd.WF) :
    0 < cd.bin_spacing := by
  obtain ⟨hn, hlt, hsp⟩ := h
  rw [hsp]
  exact div_pos (sub_pos.2 hlt) (by exact_mod_cast hn)

theorem CoordinateData.nbins_mul_spacing {cd : CoordinateData} (h : cd.WF) :
    (cd.n_bins : ℚ) * cd.bin_spacing = cd.maximum - cd.minimum := by
  obtain ⟨hn, hlt, hsp⟩ := h
  rw [hsp]
  field_simp

theorem binIndex_in_range (pf : PatternFitter) (d : ℕ) (x : ℚ)
    (h1 : (pf.coordinate_data.getD d default).minimum ≤ x)
    (h2 : x ≤ (pf.coordinate_data.getD d default).maximum) :
    pf._get_bin_index x d =
      .ok (pyInt ((x - (pf.coordinate_data.getD d default).minimum) /
        (pf.coordinate_data.getD d default).bin_spacing)) := by
  simp only [PatternFitter._get_bin_index]
  rw [if_pos ⟨h1, h2⟩]

theorem binIndex_out_of_range (pf : PatternFitter) (d : ℕ) (x : ℚ)
    (h : ¬ ((pf.coordinate_data.getD d default).minimum ≤ x ∧
      x ≤ (pf.coordinate_data.getD d default).maximum)) :
    pf._get_bin_index x d = .error .coordinateOutOfRange := by
  simp only [PatternFitter._get_bin_index]
  rw [if_neg h]

theorem floorIdx_bounds {cd : CoordinateData} (hWF : cd.WF) {x : ℚ}
    (h1 : cd.minimum ≤ x) (h2 : x < cd.maximum) :
    0 ≤ pyInt ((x - cd.minimum) / cd.bin_spacing) ∧
      pyInt ((x - cd.minimum) / cd.bin_spacing) < (cd.n_bins : ℤ) := by
  have hsp := CoordinateData.spacing_pos hWF
  have hq0 : (0:ℚ) ≤ (x - cd.minimum) / cd.bin_spacing :=
    div_nonneg (sub_nonneg.2 h1) hsp.le
  rw [pyInt_of_nonneg hq0]
  refine ⟨Int.floor_nonneg.2 hq0, ?_⟩
  rw [Int.floor_lt, div_lt_iff₀ hsp]
  have hns := CoordinateData.nbins_mul_spacing hWF
  push_cast
  linarith

/-! ### Indexing and GOF-engine lemmas -/

theorem npIndex_ok {n : ℕ} {i : ℤ} (h0 : 0 ≤ i) (hn : i < (n : ℤ)) :
    npIndex n i = .ok i.toNat := by
  simp only [npIndex]
  rw [if_pos ⟨h0, hn⟩]

theorem getD_replicate_true {n c : ℕ} (hc : c < n) :
    (List.replicate n true).getD c false = true := by
  simp [List.getD_eq_getElem?_getD, List.getElem?_replicate, hc]

theorem filter_replicate_true (n : ℕ) :
    (List.range n).filter (fun c => (List.replicate n true).getD c false) =
      List.range n := by
  apply List.filter_eq_self.2
  intro c hc
  exact getD_replicate_true (List.mem_range.1 hc)

theorem sum_map_div (l : List ℚ) (s : ℚ) :
    (l.map (· / s)).sum = l.sum / s := by
  induction l with
  | nil => simp
  | cons x xs ih => simp [ih, add_div]

theorem if_one_lt_eq_min (ao : ℚ) : (if 1 < ao then 1 else ao) = min ao 1 := by
  rcases le_or_lt ao 1 with h | h
  · rw [if_neg (not_lt.2 h), min_eq_left h]
  · rw [if_pos h, min_eq_right h.le]

/-- An all-integer bin selection resolves to a single spatial multi-index
(numpy 0-d result) exactly when every per-axis integer index is in bounds. -/
theorem resolveSelAux_idx (pf : PatternFitter) (idx : List ℤ) :
    ∀ (d : ℕ) (js : List ℕ), pf.npIndexList d idx = .ok js →
      pf.resolveSelAux d (idx.map BinSel.idx) = .ok ([js], []) := by
  induction idx with
  | nil =>
    intro d js h
    simp only [PatternFitter.npIndexList] at h
    cases h
    simp [PatternFitter.resolveSelAux]
  | cons i rest ih =>
    intro d js h
    simp only [PatternFitter.npIndexList] at h
    split at h
    · exact absurd h (by simp)
    · rename_i j hj
      split at h
      · exact absurd h (by simp)
      · rename_i tl htl
        cases h
        simp only [List.map_cons, PatternFitter.resolveSelAux,
          ih (d + 1) tl htl, hj, List.map_nil]

/-- `compute_gof` at coordinates whose bin lookup succeeds, with the
`'chi2gamma'` statistic, returns the per-bin GOF value at the resolved bin
(defaults for mask and systematic errors spelled out). -/
theorem compute_gof_chi2gamma_ok (pf : PatternFitter)
    (coordinates areas : List ℚ) (sel : Option (List Bool))
    (sse : Option (List ℚ)) (idx : List ℤ) (js : List ℕ)
    (hidx : pf.get_bin_indices coordinates = .ok idx)
    (hjs : pf.npIndexList 0 idx = .ok js) :
    pf.compute_gof coordinates areas sel sse "chi2gamma" =
      .ok (pf.gofAtBin
        ((List.range pf.n_points).filter
          (fun c => (sel.getD (List.replicate pf.n_points true)).getD c false))
        areas
        (sse.getD ((List.range pf.n_points).map
          (fun c => (pf.default_errors * areas.getD c 0) ^ 2)))
        js) := by
  simp only [PatternFitter.compute_gof, hidx, PatternFitter._compute_gof_base,
    resolveSelAux_idx pf idx 0 js hjs]
  simp

/-- If every channel contribution is the finite value `g c`, the channel-axis
sum is the finite value `Σ g`. -/
theorem foldr_add_num {α : Type} (l : List α) (f : α → FVal) (g : α → ℚ)
    (h : ∀ a ∈ l, f a = .num (g a)) :
    (l.map f).foldr FVal.add (.num 0) = .num ((l.map g).sum) := by
  induction l with
  | nil => simp
  | cons x xs ih =>
    simp only [List.map_cons, List.foldr_cons, ih (fun a ha => h a (.tail _ ha)),
      h x (.head _), FVal.add_num_num, List.sum_cons]

/-- A single chi2gamma channel contribution whose `qsum` is zero is NaN,
whatever the channel's map value, observed area and systematic error are
(0/0 gives NaN; x/0 gives ±inf which the subsequent arithmetic turns into
inf/inf = NaN). -/
theorem chi2gamma_term_nan (q t ao m s : ℚ) :
    FVal.div
      (FVal.pow2 (FVal.sub (.num (ao + m))
        ((FVal.div (.num q) (.num 0)).mul (.num t))))
      (FVal.add (FVal.add ((FVal.div (.num q) (.num 0)).mul (.num t))
        (.num s)) (.num 1)) = .nan := by
  rcases lt_trichotomy q 0 with hq | hq | hq
  · rw [FVal.div_num_num, if_pos rfl, if_neg (ne_of_lt hq),
      if_neg (not_lt.2 hq.le)]
    rcases lt_trichotomy t 0 with ht | ht | ht
    · rw [FVal.mul_neginf_num, if_neg (not_lt.2 ht.le), if_pos ht]
      simp
    · rw [FVal.mul_neginf_num, ht]
      simp
    · rw [FVal.mul_neginf_num, if_pos ht]
      simp
  · rw [FVal.div_num_num, if_pos rfl, if_pos hq]
    simp
  · rw [FVal.div_num_num, if_pos rfl, if_neg (ne_of_gt hq), if_pos hq]
    rcases lt_trichotomy t 0 with ht | ht | ht
    · rw [FVal.mul_inf_num, if_neg (not_lt.2 ht.le), if_pos ht]
      simp
    · rw [FVal.mul_inf_num, ht]
      simp
    · rw [FVal.mul_inf_num, if_pos ht]
      simp

/-- When the masked expected responses at bin `b` sum to exactly zero and at
least one channel is selected, the per-bin chi2gamma value is NaN: the
normalization divides by zero and no error is raised. -/
theorem gofAtBin_nan (pf : PatternFitter) (chans : List ℕ) (areas sse : List ℚ)
    (b : List ℕ) (hne : chans ≠ [])
    (hzero : (chans.map (pf.data b)).sum = 0) :
    pf.gofAtBin chans areas sse b = .nan := by
  obtain ⟨c, rest, rfl⟩ := List.exists_cons_of_ne_nil hne
  simp only [List.map_cons] at hzero
  simp only [PatternFitter.gofAtBin, List.map_cons, hzero, List.foldr_cons,
    chi2gamma_term_nan, FVal.add_nan_left]

/-- When the expected responses at bin `b` over the selected channels have a
positive sum and areas, errors and map values are nonnegative, the per-bin
chi2gamma value is finite and equals the exact per-channel formula with
`min(observed, 1)` (the code's `where(ao > 1, 1, ao)`). -/
theorem gofAtBin_finite (pf : PatternFitter) (chans : List ℕ)
    (areas sse : List ℚ) (b : List ℕ)
    (hq : 0 < (chans.map (pf.data b)).sum)
    (ha : ∀ c ∈ chans, 0 ≤ areas.getD c 0)
    (hs : ∀ c ∈ chans, 0 ≤ sse.getD c 0)
    (hd : ∀ c ∈ chans, 0 ≤ pf.data b c) :
    pf.gofAtBin chans areas sse b = .num ((chans.map (fun c =>
      (areas.getD c 0 + min (areas.getD c 0) 1 -
        pf.data b c / (chans.map (pf.data b)).sum *
          (chans.map (fun c2 => areas.getD c2 0)).sum) ^ 2 /
      (pf.data b c / (chans.map (pf.data b)).sum *
          (chans.map (fun c2 => areas.getD c2 0)).sum +
        sse.getD c 0 + 1))).sum) := by
  simp only [PatternFitter.gofAtBin]
  apply foldr_add_num
  intro c hc
  have htot : 0 ≤ (chans.map (fun c2 => areas.getD c2 0)).sum := by
    apply List.sum_nonneg
    intro x hx
    obtain ⟨c2, hc2, rfl⟩ := List.mem_map.1 hx
    exact ha c2 hc2
  have hae : 0 ≤ pf.data b c / (chans.map (pf.data b)).sum *
      (chans.map (fun c2 => areas.getD c2 0)).sum :=
    mul_nonneg (div_nonneg (hd c hc) hq.le) htot
  have hden : pf.data b c / (chans.map (pf.data b)).sum *
      (chans.map (fun c2 => areas.getD c2 0)).sum + sse.getD c 0 + 1 ≠ 0 := by
    have := hs c hc
    positivity
  rw [FVal.div_num_num, if_neg (ne_of_gt hq), FVal.mul_num_num,
    FVal.sub_num_num, FVal.pow2_num, FVal.add_num_num, FVal.add_num_num,
    FVal.div_num_num, if_neg hden, if_one_lt_eq_min]
  rw [← pow_two]

/-- C1 supporting fact, in general form: at `value == maximum` (which passes
the inclusive range check), `_get_bin_index` returns `n_bins`, one past the
last valid bin index `n_bins - 1`. -/
theorem binIndex_at_max {cd : CoordinateData} (hWF : cd.WF)
    (pf : PatternFitter) (d : ℕ)
    (hd : pf.coordinate_data.getD d default = cd) :
    pf._get_bin_index cd.maximum d = .ok (cd.n_bins : ℤ) := by
  rw [binIndex_in_range pf d cd.maximum (by rw [hd]; exact hWF.2.1.le)
    (by rw [hd])]
  rw [hd]
  have hsp := CoordinateData.spacing_pos hWF
  have hne : cd.maximum - cd.minimum ≠ 0 := sub_ne_zero.2 (ne_of_gt hWF.2.1)
  have hq : (cd.maximum - cd.minimum) / cd.bin_spacing = (cd.n_bins : ℚ) := by
    rw [hWF.2.2]
    field_simp
  rw [hq, pyInt_of_nonneg (by positivity), Int.floor_natCast]

/-! ### Claim theorems -/

/-- C1: the claim states that `_get_bin_index` maps `value == maximum` to the
last valid bin `n_bins - 1`.  The code has no such clamp: for every
well-formed axis, the inclusive range check passes at `maximum` and
`int((maximum - minimum) / bin_spacing) = n_bins`, one PAST the last valid
bin (so downstream integer indexing at the exact upper edge raises
IndexError rather than using the last bin). -/
theorem C1_bin_index_at_maximum (pf : PatternFitter) (d : ℕ)
    (hWF : (pf.coordinate_data.getD d default).WF) :
    pf._get_bin_index (pf.coordinate_data.getD d default).maximum d =
      .ok ((pf.coordinate_data.getD d default).n_bins : ℤ) :=
  binIndex_at_max hWF pf d rfl

/-- C1 witness: on the concrete axis `[0, 10]` with 10 bins, the value `10`
(the maximum) yields bin index 10 = `n_bins`, not 9. -/
theorem C1_witness :
    pf1._get_bin_index 10 0 = .ok 10 ∧ ((10:ℤ) ≠ 10 - 1) := by
  constructor
  · exact C1_bin_index_at_maximum pf1 0
      (by norm_num [pf1, cd10, CoordinateData.WF])
  · decide

/-- C8: the bin-center/bin-index round trip.  For every well-formed axis and
valid bin index `i < n_bins`, `bin_center(i)` lies strictly inside the axis
range and `_get_bin_index` maps it back to `i`, without raising. -/
theorem C8_round_trip (pf : PatternFitter) (d : ℕ) (i : ℕ)
    (hWF : (pf.coordinate_data.getD d default).WF)
    (hi : i < (pf.coordinate_data.getD d default).n_bins) :
    pf._get_bin_index (pf._get_bin_center (i : ℤ) d) d = .ok (i : ℤ) := by
  have hsp := CoordinateData.spacing_pos hWF
  have hin : (i : ℚ) + 1 ≤ ((pf.coordinate_data.getD d default).n_bins : ℚ) := by
    exact_mod_cast Nat.succ_le_of_lt hi
  have hns := CoordinateData.nbins_mul_spacing hWF
  have hcenter : pf._get_bin_center (i : ℤ) d =
      (pf.coordinate_data.getD d default).minimum +
        (pf.coordinate_data.getD d default).bin_spacing * ((i : ℚ) + 1/2) := by
    simp [PatternFitter._get_bin_center]
  have h1 : (pf.coordinate_data.getD d default).minimum ≤
      pf._get_bin_center (i : ℤ) d := by
    rw [hcenter]
    nlinarith
  have h2 : pf._get_bin_center (i : ℤ) d ≤
      (pf.coordinate_data.getD d default).maximum := by
    rw [hcenter]
    nlinarith
  rw [binIndex_in_range pf d _ h1 h2, hcenter]
  have hq : ((pf.coordinate_data.getD d default).minimum +
      (pf.coordinate_data.getD d default).bin_spacing * ((i : ℚ) + 1/2) -
      (pf.coordinate_data.getD d default).minimum) /
      (pf.coordinate_data.getD d default).bin_spacing = (i : ℚ) + 1/2 := by
    rw [add_sub_cancel_left]
    exact mul_div_cancel_left₀ _ (ne_of_gt hsp)
  rw [hq, pyInt_of_nonneg (by positivity)]
  have hsplit : ((i:ℚ) + 1/2) = ((i:ℤ):ℚ) + 1/2 := by push_cast; ring
  rw [hsplit, Int.floor_int_add]
  norm_num

/-- C8 witness: on the concrete axis `[0, 10]` with 10 bins, bin 7's center
(7.5) maps back to bin 7. -/
theorem C8_witness : pf1._get_bin_index (pf1._get_bin_center 7 0) 0 = .ok 7 := by
  have h := C8_round_trip pf1 0 7 (by norm_num [pf1, cd10, CoordinateData.WF])
    (by norm_num [pf1, cd10])
  exact_mod_cast h

/-- C2: the `'chi2'` statistic never returns.  The expression template the
source formats for numexpr is missing a closing parenthesis (while the
`'chi2gamma'` one is balanced), so numexpr rejects it and every `chi2`
evaluation raises — here shown together with a concrete in-range `chi2`
call on the embedded `compute_gof`, which errors instead of returning the
claimed per-channel sum. -/
theorem C2_chi2_expression_malformed :
    balancedParens chi2gamma_expr_formatted = true ∧
    balancedParens chi2_expr_formatted = false ∧
    pf1.compute_gof [1/2] [1, 2] none none "chi2" = .error .parseError := by
  refine ⟨by decide, by decide, ?_⟩
  have hstat : ("chi2" = "chi2gamma") = False :=
    eq_false (by decide)
  norm_num [PatternFitter.compute_gof, PatternFitter.get_bin_indices,
    PatternFitter.getBinIndicesAux, PatternFitter._get_bin_index,
    PatternFitter._compute_gof_base, PatternFitter.resolveSelAux,
    npIndex, pf1, cd10, pyInt, intToNatLit, hstat]

/-- C3 counterexample: with one channel, observed area 4, zero systematic
error and a constant map (so `expected_amplitude = observed = 4` exactly),
the chi2gamma contribution is `(4 + min(4,1) - 4)^2 / (4 + 0 + 1) = 1/5`,
not the claimed `(4 + max(4,1) - 4)^2 / (4 + 0^2 + 1) = 16/5`: the code's
`where(ao > 1, 1, ao)` is `min(observed, 1)`, not `max(observed, 1)`. -/
theorem C3_counterexample :
    pfA.compute_gof [1/2] [4] none (some [0]) "chi2gamma" = .ok (.num (1/5)) ∧
    (1/5 : ℚ) ≠ (4 + max (4:ℚ) 1 - 4) ^ 2 / (4 + 0 ^ 2 + 1) := by
  constructor
  · norm_num [PatternFitter.compute_gof, PatternFitter.get_bin_indices,
      PatternFitter.getBinIndicesAux, PatternFitter._get_bin_index,
      PatternFitter._compute_gof_base, PatternFitter.resolveSelAux,
      PatternFitter.gofAtBin, npIndex, pfA, cd10, pyInt, List.range_succ,
      intToNatLit]
  · norm_num

/-- C3 amended: for the `'chi2gamma'` statistic (full channel set, explicit
squared systematic errors, successful bin lookup, nonnegative inputs and a
positive expected sum) the returned GOF is the finite sum over channels of
`(observed + min(observed, 1) - expected_amplitude)^2 /
(expected_amplitude + systematic_error^2 + 1)`, where `expected_amplitude`
is the expected fraction at the bin times the total observed amplitude —
i.e. the claimed formula with `min` in place of `max`. -/
theorem C3_chi2gamma_formula_min (pf : PatternFitter)
    (coordinates areas sse : List ℚ) (idx : List ℤ) (js : List ℕ)
    (hidx : pf.get_bin_indices coordinates = .ok idx)
    (hjs : pf.npIndexList 0 idx = .ok js)
    (hq : 0 < ((List.range pf.n_points).map (pf.data js)).sum)
    (ha : ∀ c ∈ List.range pf.n_points, 0 ≤ areas.getD c 0)
    (hs : ∀ c ∈ List.range pf.n_points, 0 ≤ sse.getD c 0)
    (hd : ∀ c ∈ List.range pf.n_points, 0 ≤ pf.data js c) :
    pf.compute_gof coordinates areas none (some sse) "chi2gamma" =
      .ok (.num (((List.range pf.n_points).map (fun c =>
        (areas.getD c 0 + min (areas.getD c 0) 1 -
          pf.data js c / ((List.range pf.n_points).map (pf.data js)).sum *
            ((List.range pf.n_points).map (fun c2 => areas.getD c2 0)).sum) ^ 2 /
        (pf.data js c / ((List.range pf.n_points).map (pf.data js)).sum *
            ((List.range pf.n_points).map (fun c2 => areas.getD c2 0)).sum +
          sse.getD c 0 + 1))).sum)) := by
  rw [compute_gof_chi2gamma_ok pf coordinates areas none (some sse) idx js
    hidx hjs]
  simp only [Option.getD_none, Option.getD_some, filter_replicate_true]
  rw [gofAtBin_finite pf _ areas sse js hq ha hs hd]

/-- C3 witness: the amended formula evaluated on the concrete single-channel
instance of the counterexample. -/
theorem C3_witness :
    pfA.compute_gof [1/2] [4] none (some [0]) "chi2gamma" =
      .ok (.num (((List.range pfA.n_points).map (fun c =>
        (([4] : List ℚ).getD c 0 + min (([4] : List ℚ).getD c 0) 1 -
          pfA.data [0] c / ((List.range pfA.n_points).map (pfA.data [0])).sum *
            ((List.range pfA.n_points).map
              (fun c2 => ([4] : List ℚ).getD c2 0)).sum) ^ 2 /
        (pfA.data [0] c / ((List.range pfA.n_points).map (pfA.data [0])).sum *
            ((List.range pfA.n_points).map
              (fun c2 => ([4] : List ℚ).getD c2 0)).sum +
          ([0] : List ℚ).getD c 0 + 1))).sum)) := by
  refine C3_chi2gamma_formula_min pfA [1/2] [4] [0] [0] [0] ?_ ?_ ?_ ?_ ?_ ?_
  · norm_num [PatternFitter.get_bin_indices, PatternFitter.getBinIndicesAux,
      PatternFitter._get_bin_index, pfA, cd10, pyInt]
  · norm_num [PatternFitter.npIndexList, npIndex, pfA, cd10, intToNatLit]
  · norm_num [pfA, List.range_succ]
  · intro c hc
    rw [List.mem_range] at hc
    simp only [pfA] at hc
    interval_cases c
    norm_num [pfA]
  · intro c hc
    rw [List.mem_range] at hc
    simp only [pfA] at hc
    interval_cases c
    norm_num [pfA]
  · intro c hc
    rw [List.mem_range] at hc
    simp only [pfA] at hc
    interval_cases c
    norm_num [pfA]

/-- C4 counterexample: the all-zeros expected pattern at the in-range
coordinate 5.5 (spatial bin 5 of `pfZ`) raises exactly the same exception as
a genuinely out-of-range coordinate (99): `CoordinateOutOfRangeException` in
both cases — there is no distinct `EmptyPatternError` in the code. -/
theorem C4_counterexample :
    pfZ.expected_pattern [11/2] = .error .coordinateOutOfRange ∧
    pfZ.expected_pattern [99] = .error .coordinateOutOfRange := by
  constructor
  · norm_num [PatternFitter.expected_pattern, PatternFitter.get_bin_indices,
      PatternFitter.getBinIndicesAux, PatternFitter._get_bin_index,
      PatternFitter.npIndexList, npIndex, pfZ, cd10, pyInt, List.range_succ,
      intToNatLit]
  · norm_num [PatternFitter.expected_pattern, PatternFitter.get_bin_indices,
      PatternFitter.getBinIndicesAux, PatternFitter._get_bin_index,
      PatternFitter.npIndexList, npIndex, pfZ, cd10, pyInt, List.range_succ,
      intToNatLit]

/-- C4 amended: at a coordinate whose bin lookup succeeds but whose
full-channel expected pattern sums to zero, `expected_pattern` raises
`CoordinateOutOfRangeException` — the very same exception class used for
out-of-range coordinates, not a distinct error; consequently the
`safe_compute_gof` objective wrapper of `minimize_gof_powell`, which catches
exactly that class, maps every `compute_gof` error of that class to
`+infinity`. -/
theorem C4_zero_pattern_same_exception (pf : PatternFitter)
    (coordinates : List ℚ) (idx : List ℤ) (js : List ℕ)
    (hidx : pf.get_bin_indices coordinates = .ok idx)
    (hjs : pf.npIndexList 0 idx = .ok js)
    (hzero : ((List.range pf.n_points).map (pf.data js)).sum = 0) :
    pf.expected_pattern coordinates = .error .coordinateOutOfRange ∧
    ∀ areas sel sse stat,
      pf.compute_gof coordinates areas sel sse stat =
        .error .coordinateOutOfRange →
      pf.safe_compute_gof coordinates areas sel sse stat = .ok .inf := by
  constructor
  · simp only [PatternFitter.expected_pattern, hidx, hjs]
    rw [if_pos hzero]
  · intro areas sel sse stat h
    simp only [PatternFitter.safe_compute_gof, h]

/-- C4 witness: the amended statement at the concrete zero-pattern bin. -/
theorem C4_witness :
    pfZ.expected_pattern [11/2] = .error .coordinateOutOfRange ∧
    ∀ areas sel sse stat,
      pfZ.compute_gof [11/2] areas sel sse stat =
        .error .coordinateOutOfRange →
      pfZ.safe_compute_gof [11/2] areas sel sse stat = .ok .inf := by
  refine C4_zero_pattern_same_exception pfZ [11/2] [5] [5] ?_ ?_ ?_
  · norm_num [PatternFitter.get_bin_indices, PatternFitter.getBinIndicesAux,
      PatternFitter._get_bin_index, pfZ, cd10, pyInt]
  · norm_num [PatternFitter.npIndexList, npIndex, pfZ, cd10, intToNatLit]
  · norm_num [pfZ, List.range_succ]

/-- C9 counterexample: `pf1`'s map is strictly positive everywhere (so every
pattern that exists has a nonzero sum), yet at the in-range coordinate 10
(the inclusive axis maximum) `expected_pattern` raises IndexError instead of
returning a probability vector: the C1 off-by-one sends the upper edge to
bin index `n_bins`. -/
theorem C9_counterexample :
    cd10.minimum ≤ 10 ∧ (10:ℚ) ≤ cd10.maximum ∧
    (∀ b c, 0 < pf1.data b c) ∧
    pf1.expected_pattern [10] = .error .indexError := by
  refine ⟨by norm_num [cd10], by norm_num [cd10], ?_, ?_⟩
  · intro b c
    simp only [pf1]
    split <;> norm_num
  · norm_num [PatternFitter.expected_pattern, PatternFitter.get_bin_indices,
      PatternFitter.getBinIndicesAux, PatternFitter._get_bin_index,
      PatternFitter.npIndexList, npIndex, pf1, cd10, pyInt, List.range_succ]

/-- C9 amended: at every coordinate whose bin lookup succeeds (bin indices
exist and are in bounds — which excludes the exact-maximum edge, see the C1
defect), with nonnegative map values and a nonzero expected sum at that bin,
`expected_pattern` returns a vector of nonnegative entries summing exactly
to 1: a discrete probability distribution over the full channel set. -/
theorem C9_expected_pattern_distribution (pf : PatternFitter)
    (coordinates : List ℚ) (idx : List ℤ) (js : List ℕ)
    (hidx : pf.get_bin_indices coordinates = .ok idx)
    (hjs : pf.npIndexList 0 idx = .ok js)
    (hd : ∀ c ∈ List.range pf.n_points, 0 ≤ pf.data js c)
    (hsum : ((List.range pf.n_points).map (pf.data js)).sum ≠ 0) :
    ∃ p, pf.expected_pattern coordinates = .ok p ∧
      (∀ y ∈ p, 0 ≤ y) ∧ p.sum = 1 := by
  simp only [PatternFitter.expected_pattern, hidx, hjs]
  rw [if_neg hsum]
  refine ⟨_, rfl, ?_, ?_⟩
  · intro y hy
    obtain ⟨x, hx, rfl⟩ := List.mem_map.1 hy
    obtain ⟨c, hc, rfl⟩ := List.mem_map.1 hx
    have hspos : 0 < ((List.range pf.n_points).map (pf.data js)).sum := by
      refine lt_of_le_of_ne ?_ (Ne.symm hsum)
      apply List.sum_nonneg
      intro z hz
      obtain ⟨c2, hc2, rfl⟩ := List.mem_map.1 hz
      exact hd c2 hc2
    exact div_nonneg (hd c hc) hspos.le
  · rw [sum_map_div, div_self hsum]

/-- C9 witness: the amended statement at a concrete interior coordinate of
the two-channel instance. -/
theorem C9_witness :
    ∃ p, pf1.expected_pattern [1/2] = .ok p ∧
      (∀ y ∈ p, 0 ≤ y) ∧ p.sum = 1 := by
  refine C9_expected_pattern_distribution pf1 [1/2] [0] [0] ?_ ?_ ?_ ?_
  · norm_num [PatternFitter.get_bin_indices, PatternFitter.getBinIndicesAux,
      PatternFitter._get_bin_index, pf1, cd10, pyInt]
  · norm_num [PatternFitter.npIndexList, npIndex, pf1, cd10, intToNatLit]
  · intro c hc
    rw [List.mem_range] at hc
    simp only [pf1] at hc
    interval_cases c <;> norm_num [pf1]
  · norm_num [pf1, List.range_succ]

/-- C10 counterexample: with an all-false channel mask the masked expected
responses sum to zero, yet `compute_gof` returns the finite value 0 (an
empty sum), not a non-finite value: the claim's "for every bin selection
where the masked expected values sum to zero" fails in the degenerate
no-channel case, where no division happens at all. -/
theorem C10_counterexample :
    (((List.range pf1.n_points).filter
        (fun c => ([false, false] : List Bool).getD c false)).map
      (pf1.data [0])).sum = 0 ∧
    pf1.compute_gof [1/2] [1, 2] (some [false, false]) none "chi2gamma" =
      .ok (.num 0) ∧
    (FVal.num 0).isFinite = true := by
  refine ⟨by simp [pf1, List.range_succ], ?_, rfl⟩
  norm_num [PatternFitter.compute_gof, PatternFitter.get_bin_indices,
    PatternFitter.getBinIndicesAux, PatternFitter._get_bin_index,
    PatternFitter._compute_gof_base, PatternFitter.resolveSelAux,
    PatternFitter.gofAtBin, npIndex, pf1, cd10, pyInt, List.range_succ,
    intToNatLit]

/-- C10 amended: at every bin whose lookup succeeds, with at least one
selected channel and masked expected responses summing to exactly zero,
`compute_gof` with `'chi2gamma'` performs no zero-sum check: the
normalization divides by zero and the call returns NaN (a non-finite value)
instead of raising any error. -/
theorem C10_zero_sum_gof_nan (pf : PatternFitter)
    (coordinates areas : List ℚ) (sel : List Bool) (sse : Option (List ℚ))
    (idx : List ℤ) (js : List ℕ)
    (hidx : pf.get_bin_indices coordinates = .ok idx)
    (hjs : pf.npIndexList 0 idx = .ok js)
    (hne : (List.range pf.n_points).filter (fun c => sel.getD c false) ≠ [])
    (hzero : (((List.range pf.n_points).filter
      (fun c => sel.getD c false)).map (pf.data js)).sum = 0) :
    pf.compute_gof coordinates areas (some sel) sse "chi2gamma" =
      .ok .nan ∧ FVal.nan.isFinite = false := by
  refine ⟨?_, rfl⟩
  rw [compute_gof_chi2gamma_ok pf coordinates areas (some sel) sse idx js
    hidx hjs]
  simp only [Option.getD_some]
  rw [gofAtBin_nan pf _ areas _ js hne hzero]

/-! ### Grid-selection lemmas -/

set_option maxHeartbeats 2000000 in
theorem gridSelectionAux_spec (pf : PatternFitter) (g : ℚ) (hg : 0 ≤ g) :
    ∀ (center : List ℚ) (d : ℕ),
      (∀ i < center.length, (pf.coordinate_data.getD (d + i) default).WF) →
      ((∃ i, i < center.length ∧
          (center.getD i 0 < (pf.coordinate_data.getD (d + i) default).minimum ∨
           (pf.coordinate_data.getD (d + i) default).maximum <
             center.getD i 0)) →
        pf.gridSelectionAux g d center = .error .coordinateOutOfRange) ∧
      ((∀ i, i < center.length →
          (pf.coordinate_data.getD (d + i) default).minimum ≤
            center.getD i 0 ∧
          center.getD i 0 ≤ (pf.coordinate_data.getD (d + i) default).maximum) →
        ∃ r, pf.gridSelectionAux g d center = .ok r) := by
  intro center
  induction center with
  | nil =>
    intro d _
    exact ⟨fun ⟨i, hi, _⟩ => absurd hi (Nat.not_lt_zero i),
      fun _ => ⟨([], []), rfl⟩⟩
  | cons x rest ih =>
    intro d hax
    have hWF0 : (pf.coordinate_data.getD d default).WF := by
      have := hax 0 (Nat.succ_pos _)
      simpa using this
    have haxs : ∀ i < rest.length,
        (pf.coordinate_data.getD (d + 1 + i) default).WF := by
      intro i hi
      have := hax (i + 1) (Nat.succ_lt_succ hi)
      have heq : d + (i + 1) = d + 1 + i := by omega
      rwa [heq] at this
    constructor
    · rintro ⟨i, hi, hbad⟩
      by_cases hin : (pf.coordinate_data.getD d default).minimum ≤ x ∧
          x ≤ (pf.coordinate_data.getD d default).maximum
      · cases i with
        | zero =>
          simp only [List.getD_cons_zero, Nat.add_zero] at hbad
          rcases hbad with hbad | hbad
          · exact absurd hin.1 (not_le.2 hbad)
          · exact absurd hin.2 (not_le.2 hbad)
        | succ i2 =>
          have hbad2 : rest.getD i2 0 <
              (pf.coordinate_data.getD (d + 1 + i2) default).minimum ∨
              (pf.coordinate_data.getD (d + 1 + i2) default).maximum <
                rest.getD i2 0 := by
            have heq : d + (i2 + 1) = d + 1 + i2 := by omega
            rw [heq] at hbad
            simpa using hbad
          have hrec := (ih (d + 1) haxs).1
            ⟨i2, Nat.lt_of_succ_lt_succ hi, hbad2⟩
          have hlo := binIndex_in_range pf d
            (max (x - g / 2) (pf.coordinate_data.getD d default).minimum)
            (le_max_right _ _)
            (max_le (by linarith [hin.2]) hWF0.2.1.le)
          have hhi := binIndex_in_range pf d
            (min (x + g / 2) (pf.coordinate_data.getD d default).maximum)
            (le_min (by linarith [hin.1]) hWF0.2.1.le)
            (min_le_right _ _)
          simp only [PatternFitter.gridSelectionAux]
          rw [if_pos hin, hlo, hhi, hrec]
      · simp only [PatternFitter.gridSelectionAux]
        rw [if_neg hin]
    · intro hall
      have hin : (pf.coordinate_data.getD d default).minimum ≤ x ∧
          x ≤ (pf.coordinate_data.getD d default).maximum := by
        have := hall 0 (Nat.succ_pos _)
        simpa using this
      have halls : ∀ i, i < rest.length →
          (pf.coordinate_data.getD (d + 1 + i) default).minimum ≤
            rest.getD i 0 ∧
          rest.getD i 0 ≤
            (pf.coordinate_data.getD (d + 1 + i) default).maximum := by
        intro i hi
        have := hall (i + 1) (Nat.succ_lt_succ hi)
        have heq : d + (i + 1) = d + 1 + i := by omega
        rw [heq] at this
        simpa using this
      obtain ⟨r, hr⟩ := (ih (d + 1) haxs).2 halls
      have hlo := binIndex_in_range pf d
        (max (x - g / 2) (pf.coordinate_data.getD d default).minimum)
        (le_max_right _ _)
        (max_le (by linarith [hin.2]) hWF0.2.1.le)
      have hhi := binIndex_in_range pf d
        (min (x + g / 2) (pf.coordinate_data.getD d default).maximum)
        (le_min (by linarith [hin.1]) hWF0.2.1.le)
        (min_le_right _ _)
      simp only [PatternFitter.gridSelectionAux, hlo, hhi, hr, if_pos hin]
      exact ⟨_, rfl⟩

theorem gridSelectionAux_slices (pf : PatternFitter) (g : ℚ) :
    ∀ (center : List ℚ) (d : ℕ) (sels : List BinSel) (lows : List ℤ),
      pf.gridSelectionAux g d center = .ok (sels, lows) →
      ∀ s ∈ sels, ∃ a b, s = BinSel.sl a b := by
  intro center
  induction center with
  | nil =>
    intro d sels lows h s hs
    simp only [PatternFitter.gridSelectionAux] at h
    cases h
    cases hs
  | cons x rest ih =>
    intro d sels lows h s hs
    simp only [PatternFitter.gridSelectionAux] at h
    split at h
    · split at h
      · exact absurd h (by simp)
      · split at h
        · exact absurd h (by simp)
        · split at h
          · exact absurd h (by simp)
          · rename_i r hsl2
            simp only [Except.ok.injEq, Prod.mk.injEq] at h
            obtain ⟨rfl, rfl⟩ := h
            rcases List.mem_cons.1 hs with rfl | hs2
            · exact ⟨_, _, rfl⟩
            · exact ih (d + 1) r.1 r.2 hsl2 s hs2
    · exact absurd h (by simp)

theorem resolveSelAux_slices_ok (pf : PatternFitter) :
    ∀ (sels : List BinSel) (d : ℕ),
      (∀ s ∈ sels, ∃ a b, s = BinSel.sl a b) →
      ∃ r, pf.resolveSelAux d sels = .ok r := by
  intro sels
  induction sels with
  | nil => exact fun d _ => ⟨([[]], []), rfl⟩
  | cons s rest ih =>
    intro d hsl
    obtain ⟨r, hr⟩ := ih (d + 1) (fun s2 hs2 => hsl s2 (.tail _ hs2))
    obtain ⟨a, b, rfl⟩ := hsl s (.head _)
    rcases r with ⟨tails, tshape⟩
    refine ⟨?_, ?_⟩
    · exact ((sliceIndices (pf.coordinate_data.getD d default).n_bins
        a b).flatMap (fun j => tails.map (j :: ·)),
        (sliceIndices (pf.coordinate_data.getD d default).n_bins
          a b).length :: tshape)
    · simp only [PatternFitter.resolveSelAux, hr]

/-- C6: with nonnegative `grid_size` and well-formed axes for every center
component, `compute_gof_grid` fails with `CoordinateOutOfRangeException` if
and only if some component of the center coordinate lies strictly outside
its axis's `[minimum, maximum]`; the clamped window edges
`max(center - grid_size/2, minimum)` / `min(center + grid_size/2, maximum)`
are always in range, so their bin lookups never raise (whatever the
statistic or the other inputs are). -/
theorem C6_grid_out_of_range_iff (pf : PatternFitter) (center : List ℚ)
    (grid_size : ℚ) (areas : List ℚ) (sel : Option (List Bool))
    (sse : Option (List ℚ)) (stat : String) (hg : 0 ≤ grid_size)
    (hax : ∀ i < center.length, (pf.coordinate_data.getD i default).WF) :
    pf.compute_gof_grid center grid_size areas sel sse stat =
        .error .coordinateOutOfRange ↔
      ∃ i < center.length,
        center.getD i 0 < (pf.coordinate_data.getD i default).minimum ∨
        (pf.coordinate_data.getD i default).maximum < center.getD i 0 := by
  have hspec := gridSelectionAux_spec pf grid_size hg center 0
    (by simpa using hax)
  simp only [Nat.zero_add] at hspec
  constructor
  · intro herr
    by_contra hno
    push_neg at hno
    obtain ⟨r, hr⟩ := hspec.2 (fun i hi => hno i hi)
    rcases r with ⟨sels, lows⟩
    obtain ⟨rr, hrr⟩ := resolveSelAux_slices_ok pf sels 0
      (gridSelectionAux_slices pf grid_size center 0 sels lows hr)
    rcases rr with ⟨combos, shape⟩
    simp only [PatternFitter.compute_gof_grid, hr,
      PatternFitter._compute_gof_base, hrr] at herr
    by_cases h1 : stat = "chi2gamma"
    · simp [h1] at herr
    · by_cases h2 : stat = "chi2" <;> simp [h1, h2] at herr
  · rintro ⟨i, hi, hbad⟩
    have h := hspec.1 ⟨i, hi, by simpa using hbad⟩
    simp only [PatternFitter.compute_gof_grid, h]

/-- C6 witness: center 11 is above the axis maximum 10, so the grid fails
with the out-of-range error. -/
theorem C6_witness :
    pf1.compute_gof_grid [11] 2 [1, 2] none none "chi2gamma" =
      .error .coordinateOutOfRange := by
  refine (C6_grid_out_of_range_iff pf1 [11] 2 [1, 2] none none "chi2gamma"
    (by norm_num) ?_).mpr ⟨0, by norm_num, ?_⟩
  · intro i hi
    norm_num at hi
    subst hi
    norm_num [pf1, cd10, CoordinateData.WF]
  · norm_num [pf1, cd10]

/-! ### Degenerate-grid lemmas -/

theorem sliceIndices_singleton {n : ℕ} {i : ℤ} (h0 : 0 ≤ i)
    (hn : i < (n : ℤ)) : sliceIndices n i (i + 1) = [i.toNat] := by
  simp only [sliceIndices]
  rw [if_neg (not_lt.2 h0), if_neg (by omega : ¬ i + 1 < 0),
    min_eq_left hn.le, min_eq_left (by omega : i + 1 ≤ (n : ℤ)),
    (by omega : (i + 1 - i).toNat = 1)]
  rfl

/-- With `grid_size = 0` and a center strictly inside every axis, the grid
path and the point path resolve to the same single spatial bin: the point
path's bin indices are exactly the lowest bins, the window slices are the
one-bin slices `[i, i+1)`, and the slice resolution yields the singleton
combo at shape `1 × … × 1`. -/
theorem gridDegenerate (pf : PatternFitter) :
    ∀ (center : List ℚ) (d : ℕ),
      (∀ i < center.length, (pf.coordinate_data.getD (d + i) default).WF ∧
        (pf.coordinate_data.getD (d + i) default).minimum ≤ center.getD i 0 ∧
        center.getD i 0 < (pf.coordinate_data.getD (d + i) default).maximum) →
      ∃ (idx : List ℤ) (js : List ℕ),
        pf.getBinIndicesAux d center = .ok idx ∧
        pf.npIndexList d idx = .ok js ∧
        pf.gridSelectionAux 0 d center =
          .ok (idx.map (fun i => BinSel.sl i (i + 1)), idx) ∧
        pf.resolveSelAux d (idx.map (fun i => BinSel.sl i (i + 1))) =
          .ok ([js], List.replicate center.length 1) := by
  intro center
  induction center with
  | nil =>
    intro d _
    exact ⟨[], [], rfl, rfl, rfl, rfl⟩
  | cons x rest ih =>
    intro d hax
    have h0 := hax 0 (Nat.succ_pos _)
    simp only [Nat.add_zero, List.getD_cons_zero] at h0
    have haxs : ∀ i < rest.length,
        (pf.coordinate_data.getD (d + 1 + i) default).WF ∧
        (pf.coordinate_data.getD (d + 1 + i) default).minimum ≤
          rest.getD i 0 ∧
        rest.getD i 0 <
          (pf.coordinate_data.getD (d + 1 + i) default).maximum := by
      intro i hi
      have h5 := hax (i + 1) (Nat.succ_lt_succ hi)
      have heq : d + (i + 1) = d + 1 + i := by omega
      rw [heq] at h5
      simpa only [List.getD_cons_succ] using h5
    obtain ⟨idx2, js2, h1, h2, h3, h4⟩ := ih (d + 1) haxs
    obtain ⟨hWF0, hxlo, hxhi⟩ := h0
    have hbnd := floorIdx_bounds hWF0 hxlo hxhi
    have hbi := binIndex_in_range pf d x hxlo hxhi.le
    have hnp := npIndex_ok hbnd.1 hbnd.2
    have hmaxeq : max (x - (0:ℚ) / 2)
        (pf.coordinate_data.getD d default).minimum = x := by
      rw [show x - (0:ℚ) / 2 = x by ring]
      exact max_eq_left hxlo
    have hmineq : min (x + (0:ℚ) / 2)
        (pf.coordinate_data.getD d default).maximum = x := by
      rw [show x + (0:ℚ) / 2 = x by ring]
      exact min_eq_left hxhi.le
    refine ⟨pyInt ((x - (pf.coordinate_data.getD d default).minimum) /
      (pf.coordinate_data.getD d default).bin_spacing) :: idx2,
      (pyInt ((x - (pf.coordinate_data.getD d default).minimum) /
        (pf.coordinate_data.getD d default).bin_spacing)).toNat :: js2,
      ?_, ?_, ?_, ?_⟩
    · simp only [PatternFitter.getBinIndicesAux, hbi, h1]
    · simp only [PatternFitter.npIndexList, hnp, h2]
    · have hin := And.intro hxlo hxhi.le
      simp only [PatternFitter.gridSelectionAux, hmaxeq, hmineq, hbi, h3,
        if_pos hin, List.map_cons]
    · simp only [List.map_cons, PatternFitter.resolveSelAux, h4,
        sliceIndices_singleton hbnd.1 hbnd.2, List.flatMap_cons,
        List.flatMap_nil, List.map_cons, List.map_nil, List.append_nil,
        List.length_cons, List.length_nil, List.length_singleton,
        List.replicate_succ]

/-- C7 counterexample: at center 10 — in range, being the inclusive axis
maximum — `compute_gof_grid` with `grid_size = 0` returns an EMPTY grid
(shape `[0]`, no entries: the window `slice(10, 11)` clamps to nothing on a
10-bin axis), not a 1×…×1 grid, while `compute_gof` at the same coordinate
raises IndexError; so the claimed equivalence fails at the upper edge. -/
theorem C7_counterexample :
    pfA.compute_gof_grid [10] 0 [1] none none "chi2gamma" =
      .ok (⟨[0], []⟩, [10]) ∧
    pfA.compute_gof [10] [1] none none "chi2gamma" = .error .indexError := by
  constructor
  · norm_num [PatternFitter.compute_gof_grid, PatternFitter.gridSelectionAux,
      PatternFitter._get_bin_index, PatternFitter._compute_gof_base,
      PatternFitter.resolveSelAux, PatternFitter.gofAtBin, sliceIndices,
      npIndex, pfA, cd10, pyInt, List.range_succ, List.range', intToNatLit]
  · norm_num [PatternFitter.compute_gof, PatternFitter.get_bin_indices,
      PatternFitter.getBinIndicesAux, PatternFitter._get_bin_index,
      PatternFitter._compute_gof_base, PatternFitter.resolveSelAux,
      npIndex, pfA, cd10, pyInt, intToNatLit]

/-- C7 amended: for every center coordinate strictly inside every
(well-formed) axis — i.e. excluding the inclusive upper edge, where the C1
off-by-one makes the two paths diverge — `compute_gof_grid` with
`grid_size = 0` and statistic `'chi2gamma'` produces the degenerate
`1 × … × 1` grid whose single entry equals the scalar `compute_gof` returns
at the same center with the same parameters. -/
theorem C7_degenerate_grid (pf : PatternFitter) (center areas : List ℚ)
    (sel : Option (List Bool)) (sse : Option (List ℚ))
    (hax : ∀ i < center.length, (pf.coordinate_data.getD i default).WF ∧
      (pf.coordinate_data.getD i default).minimum ≤ center.getD i 0 ∧
      center.getD i 0 < (pf.coordinate_data.getD i default).maximum) :
    ∃ v lows,
      pf.compute_gof_grid center 0 areas sel sse "chi2gamma" =
        .ok (⟨List.replicate center.length 1, [v]⟩, lows) ∧
      pf.compute_gof center areas sel sse "chi2gamma" = .ok v := by
  obtain ⟨idx, js, h1, h2, h3, h4⟩ := gridDegenerate pf center 0
    (by simpa using hax)
  refine ⟨_, idx, ?_, compute_gof_chi2gamma_ok pf center areas sel sse idx js
    h1 h2⟩
  simp only [PatternFitter.compute_gof_grid, h3,
    PatternFitter._compute_gof_base, h4]
  simp

/-- C7 witness: the amended equivalence on the single-channel instance at
the interior center 0.5. -/
theorem C7_witness :
    ∃ v lows,
      pfA.compute_gof_grid [1/2] 0 [1] none none "chi2gamma" =
        .ok (⟨List.replicate ([(1:ℚ)/2]).length 1, [v]⟩, lows) ∧
      pfA.compute_gof [1/2] [1] none none "chi2gamma" = .ok v := by
  refine C7_degenerate_grid pfA [1/2] [1] none none ?_
  intro i hi
  norm_num at hi
  subst hi
  norm_num [pfA, cd10, CoordinateData.WF]

/-! ### nanargmin lemmas -/

theorem flt_irrefl (v : FVal) : FVal.flt v v = false := by
  cases v <;> simp [FVal.flt]

theorem flt_asymm {a b : FVal} (h : FVal.flt a b = true) :
    FVal.flt b a = false := by
  cases a <;> cases b <;> simp_all [FVal.flt]
  linarith

theorem flt_not_lt_trans {a b c : FVal} (ha : a.isNan = false)
    (hb : b.isNan = false) (hc : c.isNan = false)
    (hab : FVal.flt a b = false) (hbc : FVal.flt b c = false) :
    FVal.flt a c = false := by
  cases a <;> cases b <;> cases c <;> simp_all [FVal.flt, FVal.isNan]
  linarith

theorem nanargmin_none : ∀ (l : List FVal), nanargmin l = none →
    ∀ v ∈ l, v.isNan = true := by
  intro l
  induction l with
  | nil => intro _ v hv; cases hv
  | cons x rest ih =>
    intro h v hv
    simp only [nanargmin] at h
    rcases hrec : nanargmin rest with _ | p
    · rw [hrec] at h
      rcases List.mem_cons.1 hv with rfl | hv2
      · by_contra hx
        rw [Bool.not_eq_true] at hx
        rw [hx] at h
        simp at h
      · exact ih hrec v hv2
    · rw [hrec] at h
      rcases p with ⟨j, w⟩
      by_cases hx : x.isNan
      · simp [hx] at h
      · simp [hx] at h
        split at h <;> simp at h

/-- Full characterization of `np.nanargmin`: the returned index is in range,
holds the returned value, that value is not NaN, no non-NaN entry is
strictly smaller, and every earlier entry is NaN or strictly larger (i.e.
ties resolve to the first occurrence in flat row-major order). -/
theorem nanargmin_spec : ∀ (l : List FVal) (k : ℕ) (w : FVal),
    nanargmin l = some (k, w) →
    k < l.length ∧ l.getD k .nan = w ∧ w.isNan = false ∧
    (∀ v ∈ l, v.isNan = false → FVal.flt v w = false) ∧
    (∀ j < k, (l.getD j .nan).isNan = true ∨
      FVal.flt w (l.getD j .nan) = true) := by
  intro l
  induction l with
  | nil => intro k w h; simp [nanargmin] at h
  | cons x rest ih =>
    intro k w h
    simp only [nanargmin] at h
    rcases hrec : nanargmin rest with _ | p
    · rw [hrec] at h
      by_cases hx : x.isNan
      · simp [hx] at h
      · rw [Bool.not_eq_true] at hx
        simp [hx] at h
        obtain ⟨rfl, rfl⟩ := h
        refine ⟨Nat.succ_pos _, rfl, hx, ?_, ?_⟩
        · intro v hv hvn
          rcases List.mem_cons.1 hv with rfl | hv2
          · exact flt_irrefl v
          · exact absurd (nanargmin_none rest hrec v hv2) (by simp [hvn])
        · intro j hj
          cases hj
    · rcases p with ⟨j, w'⟩
      rw [hrec] at h
      obtain ⟨hlen, hget, hwn, hmin, hfirst⟩ := ih j w' hrec
      by_cases hx : x.isNan
      · simp [hx] at h
        obtain ⟨rfl, rfl⟩ := h
        refine ⟨Nat.succ_lt_succ hlen, by simpa using hget, hwn, ?_, ?_⟩
        · intro v hv hvn
          rcases List.mem_cons.1 hv with rfl | hv2
          · rw [hx] at hvn; cases hvn
          · exact hmin v hv2 hvn
        · intro j2 hj2
          cases j2 with
          | zero => exact Or.inl (by simpa using hx)
          | succ j3 =>
            have := hfirst j3 (Nat.lt_of_succ_lt_succ hj2)
            simpa using this
      · rw [Bool.not_eq_true] at hx
        simp only [hx, Bool.false_eq_true, if_false] at h
        by_cases hlt : FVal.flt w' x
        · rw [if_pos hlt] at h
          obtain ⟨rfl, rfl⟩ := Prod.mk.injEq .. ▸ (Option.some.injEq _ _ ▸ h)
          refine ⟨Nat.succ_lt_succ hlen, by simpa using hget, hwn, ?_, ?_⟩
          · intro v hv hvn
            rcases List.mem_cons.1 hv with rfl | hv2
            · exact flt_asymm hlt
            · exact hmin v hv2 hvn
          · intro j2 hj2
            cases j2 with
            | zero => exact Or.inr (by simpa using hlt)
            | succ j3 =>
              have := hfirst j3 (Nat.lt_of_succ_lt_succ hj2)
              simpa using this
        · rw [if_neg hlt] at h
          obtain ⟨rfl, rfl⟩ := Prod.mk.injEq .. ▸ (Option.some.injEq _ _ ▸ h)
          rw [Bool.not_eq_true] at hlt
          refine ⟨Nat.succ_pos _, rfl, hx, ?_, ?_⟩
          · intro v hv hvn
            rcases List.mem_cons.1 hv with rfl | hv2
            · exact flt_irrefl v
            · exact flt_not_lt_trans hvn hwn hx (hmin v hv2 hvn) hlt
          · intro j2 hj2
            cases hj2

/-- C5: when `compute_gof_grid` succeeds and `minimize_gof_grid` returns,
the returned GOF is an entry of the grid's row-major flattening that is not
NaN and is less-or-equal to every non-NaN entry; every earlier flat entry is
NaN or strictly larger (first-minimum tie-break in row-major scan order);
and the returned coordinates are the bin centers at (recorded lowest bin +
unraveled index of that minimum), dimension by dimension. -/
theorem C5_minimize_grid_spec (pf : PatternFitter) (center : List ℚ) (g : ℚ)
    (areas : List ℚ) (sel : Option (List Bool)) (sse : Option (List ℚ))
    (stat : String) (R : GofResult) (lows : List ℤ) (coords : List ℚ)
    (gmin : FVal)
    (hgrid : pf.compute_gof_grid center g areas sel sse stat = .ok (R, lows))
    (hmin : pf.minimize_gof_grid center g areas sel sse stat =
      .ok (coords, gmin)) :
    ∃ k, k < R.flat.length ∧
      R.flat.getD k .nan = gmin ∧ gmin.isNan = false ∧
      (∀ v ∈ R.flat, v.isNan = false → FVal.flt v gmin = false) ∧
      (∀ j < k, (R.flat.getD j .nan).isNan = true ∨
        FVal.flt gmin (R.flat.getD j .nan) = true) ∧
      coords = (unravelIdx R.shape k).enum.map (fun p =>
        pf._get_bin_center (lows.getD p.1 0 + (p.2 : ℤ)) p.1) := by
  simp only [PatternFitter.minimize_gof_grid, hgrid] at hmin
  rcases hnm : nanargmin R.flat with _ | p
  · rw [hnm] at hmin
    cases hmin
  · rcases p with ⟨k, w⟩
    rw [hnm] at hmin
    obtain ⟨hlen, hget, hwn, hmins, hfirst⟩ := nanargmin_spec R.flat k w hnm
    simp only [Except.ok.injEq, Prod.mk.injEq] at hmin
    obtain ⟨hcoords, hgmin⟩ := hmin
    refine ⟨k, hlen, ?_, ?_, ?_, ?_, hcoords.symm⟩
    · rw [← hgmin]
    · rw [← hgmin, hget]
      exact hwn
    · intro v hv hvn
      rw [← hgmin, hget]
      exact hmins v hv hvn
    · intro j hj
      rw [← hgmin, hget]
      exact hfirst j hj

set_option maxHeartbeats 1000000 in
/-- C5 witness: the single-channel constant map, center 5, grid size 2:
the grid is `[1/2, 1/2, 1/2]` over bins 4..6; the first minimum is flat
index 0, giving coordinate 4.5 (= bin_center 4) and GOF 1/2. -/
theorem C5_witness :
    ∃ k, k < ([FVal.num (1/2), FVal.num (1/2), FVal.num (1/2)]).length ∧
      ([FVal.num (1/2), FVal.num (1/2), FVal.num (1/2)]).getD k .nan =
        FVal.num (1/2) ∧
      (FVal.num (1/2)).isNan = false ∧
      (∀ v ∈ [FVal.num (1/2), FVal.num (1/2), FVal.num (1/2)],
        v.isNan = false → FVal.flt v (FVal.num (1/2)) = false) ∧
      (∀ j < k,
        (([FVal.num (1/2), FVal.num (1/2), FVal.num (1/2)]).getD j
          FVal.nan).isNan = true ∨
        FVal.flt (FVal.num (1/2))
          (([FVal.num (1/2), FVal.num (1/2), FVal.num (1/2)]).getD j
            FVal.nan) = true) ∧
      ([9/2] : List ℚ) = (unravelIdx [3] k).enum.map (fun p =>
        pfA._get_bin_center (([4] : List ℤ).getD p.1 0 + (p.2 : ℤ)) p.1) := by
  refine C5_minimize_grid_spec pfA [5] 2 [1] none none "chi2gamma"
    ⟨[3], [FVal.num (1/2), FVal.num (1/2), FVal.num (1/2)]⟩ [4] [9/2]
    (FVal.num (1/2)) ?_ ?_
  · norm_num [PatternFitter.compute_gof_grid, PatternFitter.gridSelectionAux,
      PatternFitter._get_bin_index, PatternFitter._compute_gof_base,
      PatternFitter.resolveSelAux, PatternFitter.gofAtBin, sliceIndices,
      npIndex, pfA, cd10, pyInt, List.range_succ, List.range', intToNatLit]
  · norm_num [PatternFitter.minimize_gof_grid, PatternFitter.compute_gof_grid,
      PatternFitter.gridSelectionAux, PatternFitter._get_bin_index,
      PatternFitter._compute_gof_base, PatternFitter.resolveSelAux,
      PatternFitter.gofAtBin, PatternFitter._get_bin_center, sliceIndices,
      npIndex, pfA, cd10, pyInt, List.range_succ, List.range', nanargmin,
      unravelIdx, intToNatLit]

/-- C10 witness: at the all-zero bin 5 of `pfZ` with both channels selected,
`compute_gof` returns NaN without raising. -/
theorem C10_witness :
    pfZ.compute_gof [11/2] [1, 2] (some [true, true]) none "chi2gamma" =
      .ok .nan ∧ FVal.nan.isFinite = false := by
  refine C10_zero_sum_gof_nan pfZ [11/2] [1, 2] [true, true] none [5] [5]
    ?_ ?_ ?_ ?_
  · norm_num [PatternFitter.get_bin_indices, PatternFitter.getBinIndicesAux,
      PatternFitter._get_bin_index, pfZ, cd10, pyInt]
  · norm_num [PatternFitter.npIndexList, npIndex, pfZ, cd10, intToNatLit]
  · decide
  · simp [List.range_succ, pfZ]

end Pax
